import Mathlib

/-!
# Verification of the FlamesBlue HRIS+ERP authentication core

A shallow embedding of `src/main.py` (token codec, authenticator, access
guard) together with proofs of the specification's claims about it.

Modelling conventions:
* A Python `str` is a `List Char` (a list of Unicode scalar values).
* A Python `bytes` value is a `List Nat` with every element `< 256`.
* A MongoDB user document is a fixed-shape record with `Option` fields
  (absent field = `none`); `dict.get(k)` is field access, `dict.get(k, d)`
  is `Option.getD`.
* `raise HTTPException(status, detail)` is an `Except.error` carrying the
  status code and detail string; an exception that is *not* an
  `HTTPException` (an unhandled crash) is a separate constructor.
-/

/-- A Python string: a list of Unicode scalar values. -/
abbrev PyStr := List Char

/-- `HTTPException(status_code, detail)` as raised throughout `main.py`. -/
structure HTTPError where
  status : Nat
  detail : String
deriving DecidableEq, Repr

/-- `HTTPException(401, "Invalid token")` raised by `parse_token`. -/
def invalidTokenErr : HTTPError := ⟨401, "Invalid token"⟩

/-- `HTTPException(401, "Missing Authorization header")` raised by `get_current_user`. -/
def missingAuthErr : HTTPError := ⟨401, "Missing Authorization header"⟩

/-- `HTTPException(401, "User not active or not found")` raised by `get_current_user`. -/
def notActiveErr : HTTPError := ⟨401, "User not active or not found"⟩

/-- `HTTPException(401, "Invalid credentials")` raised by `login`. -/
def invalidCredentialsErr : HTTPError := ⟨401, "Invalid credentials"⟩

/-- `HTTPException(403, "User is inactive")` raised by `login`. -/
def inactiveErr : HTTPError := ⟨403, "User is inactive"⟩

/-- `HTTPException(403, "Admin only")` raised by the role gate in `list_users`. -/
def forbiddenErr : HTTPError := ⟨403, "Admin only"⟩

/-- An exception escaping a handler: either a deliberate `HTTPException`
or an unhandled Python exception (here only the `IndexError` that
`parts[-1]` raises on an empty list). -/
inductive PyException where
  | http (e : HTTPError)
  | indexError
deriving DecidableEq, Repr

/-! ## UTF-8 (`str.encode()` / `bytes.decode()`)

Python's `str.encode()` is the standard UTF-8 encoding of the string's
scalar values; `bytes.decode()` is the strict UTF-8 decoder, which rejects
invalid leading bytes, truncated sequences, bad continuation bytes,
overlong encodings, surrogate code points and values above `0x10FFFF`. -/

/-- The UTF-8 encoding of one Unicode scalar value (1–4 bytes). -/
def utf8EncodeChar (c : Char) : List Nat :=
  let n := c.toNat
  if n < 0x80 then [n]
  else if n < 0x800 then [0xC0 + n / 64, 0x80 + n % 64]
  else if n < 0x10000 then [0xE0 + n / 4096, 0x80 + n / 64 % 64, 0x80 + n % 64]
  else [0xF0 + n / 262144, 0x80 + n / 4096 % 64, 0x80 + n / 64 % 64, 0x80 + n % 64]

/-- `s.encode()`: UTF-8 encoding of a whole string. -/
def utf8Encode : List Char → List Nat
  | [] => []
  | c :: s => utf8EncodeChar c ++ utf8Encode s

/-- One step of the strict UTF-8 decoder: decode the scalar value encoded
at the head of the byte stream, returning it with the remaining bytes, or
`none` on an invalid head sequence.  Each multi-byte branch checks the
continuation-byte shape together with the standard validity conditions
(no overlong forms, no surrogates, maximum `0x10FFFF`), phrased as range
conditions on the decoded scalar value. -/
def utf8DecodeChar? : List Nat → Option (Char × List Nat)
  | [] => none
  | b1 :: rest =>
    if b1 < 0x80 then some (Char.ofNat b1, rest)
    else if b1 < 0xC2 then none
    else if b1 < 0xE0 then
      match rest with
      | b2 :: rest2 =>
        if 0x80 ≤ b2 ∧ b2 < 0xC0 then
          some (Char.ofNat ((b1 - 0xC0) * 64 + (b2 - 0x80)), rest2)
        else none
      | [] => none
    else if b1 < 0xF0 then
      match rest with
      | b2 :: b3 :: rest3 =>
        let n := (b1 - 0xE0) * 4096 + (b2 - 0x80) * 64 + (b3 - 0x80)
        if (0x80 ≤ b2 ∧ b2 < 0xC0) ∧ (0x80 ≤ b3 ∧ b3 < 0xC0) ∧
            0x800 ≤ n ∧ ¬(0xD800 ≤ n ∧ n < 0xE000) then
          some (Char.ofNat n, rest3)
        else none
      | _ => none
    else if b1 < 0xF5 then
      match rest with
      | b2 :: b3 :: b4 :: rest4 =>
        let n := (b1 - 0xF0) * 262144 + (b2 - 0x80) * 4096 + (b3 - 0x80) * 64 + (b4 - 0x80)
        if (0x80 ≤ b2 ∧ b2 < 0xC0) ∧ (0x80 ≤ b3 ∧ b3 < 0xC0) ∧ (0x80 ≤ b4 ∧ b4 < 0xC0) ∧
            0x10000 ≤ n ∧ n < 0x110000 then
          some (Char.ofNat n, rest4)
        else none
      | _ => none
    else none

set_option maxRecDepth 8000 in
/-- `bs.decode()`: the strict UTF-8 decoder, one scalar value at a time.
Returns `none` exactly when Python raises `UnicodeDecodeError`. -/
def utf8Decode : List Nat → Option (List Char)
  | [] => some []
  | b :: rest =>
    match h : utf8DecodeChar? (b :: rest) with
    | none => none
    | some (c, rest') => (utf8Decode rest').map (fun s => c :: s)
termination_by l => l.length
decreasing_by
  simp only [utf8DecodeChar?] at h
  repeat' split at h
  all_goals (try cases h)
  all_goals simp
  all_goals omega

/-! ## Hexadecimal (`bytes.hex()` / `bytes.fromhex()`) -/

/-- One lowercase hex digit, as produced by `bytes.hex()`. -/
def hexDigitChar (n : Nat) : Char :=
  if n < 10 then Char.ofNat (48 + n) else Char.ofNat (87 + n)

/-- `bs.hex()`: two lowercase hex digits per byte. -/
def bytesHex : List Nat → List Char
  | [] => []
  | b :: bs => hexDigitChar (b / 16) :: hexDigitChar (b % 16) :: bytesHex bs

/-- Value of a hex digit (`0-9`, `a-f`, `A-F`), `none` otherwise. -/
def hexDigitVal (c : Char) : Option Nat :=
  if 48 ≤ c.toNat ∧ c.toNat ≤ 57 then some (c.toNat - 48)
  else if 97 ≤ c.toNat ∧ c.toNat ≤ 102 then some (c.toNat - 87)
  else if 65 ≤ c.toNat ∧ c.toNat ≤ 70 then some (c.toNat - 55)
  else none

/-- ASCII whitespace in the sense of C `isspace`, which `bytes.fromhex`
skips between digit pairs: space, `\t`, `\n`, `\v`, `\f`, `\r`. -/
def isAsciiSpace (c : Char) : Bool :=
  c.toNat = 32 || (9 ≤ c.toNat && c.toNat ≤ 13)

/-- `bytes.fromhex(s)`: skips ASCII whitespace before each digit pair, then
requires two consecutive hex digits per byte.  Returns `none` exactly when
Python raises `ValueError` (a lone digit, or a non-hex, non-skippable
character). -/
def bytesFromHex : List Char → Option (List Nat)
  | [] => some []
  | c :: rest =>
    if isAsciiSpace c then bytesFromHex rest
    else
      match hexDigitVal c, rest with
      | some hi, c2 :: rest2 =>
        match hexDigitVal c2 with
        | some lo => (bytesFromHex rest2).map (fun bs => (16 * hi + lo) :: bs)
        | none => none
      | _, _ => none

/-! ## `str.split(":", 1)` and `str.split()` -/

/-- `decoded.split(":", 1)` followed by the two-name unpacking in
`parse_token`: `some (before, after)` splitting at the *first* `':'`,
`none` when the string has no `':'` (Python then raises `ValueError`
from the unpacking). -/
def splitFirstColon : List Char → Option (List Char × List Char)
  | [] => none
  | c :: rest =>
    if c = ':' then some ([], rest)
    else (splitFirstColon rest).map (fun p => (c :: p.1, p.2))

/-- Whitespace in the sense of Python's `str.isspace` / no-argument
`str.split`: the Unicode whitespace code points plus the bidirectional
separators `\x1c`–`\x1f`. -/
def isPyStrSpace (c : Char) : Bool :=
  c.toNat = 32 || (9 ≤ c.toNat && c.toNat ≤ 13) || (28 ≤ c.toNat && c.toNat ≤ 31) ||
  c.toNat = 0x85 || c.toNat = 0xA0 || c.toNat = 0x1680 ||
  (0x2000 ≤ c.toNat && c.toNat ≤ 0x200A) ||
  c.toNat = 0x2028 || c.toNat = 0x2029 || c.toNat = 0x202F ||
  c.toNat = 0x205F || c.toNat = 0x3000

/-- `s.split()`: runs of whitespace separate words; leading, trailing and
repeated whitespace produce no empty words. -/
def pySplit : List Char → List (List Char)
  | [] => []
  | c :: rest =>
    if isPyStrSpace c then pySplit rest
    else
      (c :: rest.takeWhile (fun d => !isPyStrSpace d)) ::
        pySplit (rest.dropWhile (fun d => !isPyStrSpace d))
termination_by s => s.length
decreasing_by
  all_goals simp only [List.length_cons]
  · omega
  · exact Nat.lt_succ_of_le (List.Sublist.length_le (List.dropWhile_sublist _))

/-! ## Data model: user documents and the credential store

`db["user"]` returns loosely-typed documents; the auth core touches the
fields `email`, `password`, `name`, `role`, `is_active`.  A field other
than `email` may be absent (`none`).  `find_one({"email": e})` returns the
first document whose `email` equals `e`, in collection order. -/

/-- A document of the `user` collection, restricted to the fields the
authentication core reads. -/
structure UserDoc where
  email : PyStr
  password : Option PyStr
  name : Option PyStr
  role : Option PyStr
  is_active : Option Bool
deriving DecidableEq, Repr

/-- `db["user"].find_one({"email": email})`. -/
def find_one (store : List UserDoc) (email : PyStr) : Option UserDoc :=
  store.find? (fun u => u.email = email)

/-- The per-request dict returned by `get_current_user`:
`{"email": ..., "role": ..., "name": ...}`. -/
structure IdentityContext where
  email : PyStr
  role : PyStr
  name : PyStr
deriving DecidableEq, Repr

/-- The body of a `LoginResponse(email=..., name=..., role=..., token=...)`. -/
structure LoginResponse where
  email : PyStr
  name : PyStr
  role : PyStr
  token : PyStr
deriving DecidableEq, Repr

/-! ## The authentication core (`main.py`) -/

/-- `issue_token(email, role)`: the hex encoding of the UTF-8 bytes of
`f"{role}:{email}"`. -/
def issue_token (email role : PyStr) : PyStr :=
  bytesHex (utf8Encode (role ++ ':' :: email))

/-- `parse_token(token)`: `bytes.fromhex`, UTF-8 `decode`, then
`decoded.split(":", 1)` unpacked into `role, email`.  The bare `except`
turns every failure of those three steps into
`HTTPException(401, "Invalid token")`. -/
def parse_token (token : PyStr) : Except HTTPError (PyStr × PyStr) :=
  match bytesFromHex token with
  | none => .error invalidTokenErr
  | some bs =>
    match utf8Decode bs with
    | none => .error invalidTokenErr
    | some decoded =>
      match splitFirstColon decoded with
      | none => .error invalidTokenErr
      | some (role, email) => .ok (role, email)

/-- `get_current_user(authorization)`: reject a missing or empty header,
take the last whitespace-separated segment as the token (`parts[-1]`,
which raises an untyped `IndexError` when the header is non-empty but all
whitespace), parse it, then require the stored record's `is_active` to be
exactly `True` (`user.get("is_active") is not True`). -/
def get_current_user : Option PyStr → List UserDoc → Except PyException IdentityContext
  | none, _ => .error (.http missingAuthErr)
  | some a, store =>
    if a = [] then .error (.http missingAuthErr)
    else
      match (pySplit a).getLast? with
      | none => .error .indexError
      | some token =>
        match parse_token token with
        | .error e => .error (.http e)
        | .ok (role, email) =>
          match find_one store email with
          | none => .error (.http notActiveErr)
          | some user =>
            if user.is_active = some true then
              .ok ⟨email, role, user.name.getD email⟩
            else .error (.http notActiveErr)

/-- `login(payload)` (the `/auth/login` handler body, after FastAPI's
request validation and with the database configured): look up by email,
compare `user.get("password")` with the supplied password by exact
equality, reject an inactive account (`user.get("is_active", True)`), then
mint a token for `user.get("role", "employee")`. -/
def login (store : List UserDoc) (email password : PyStr) :
    Except HTTPError LoginResponse :=
  match find_one store email with
  | none => .error invalidCredentialsErr
  | some user =>
    if user.password = some password then
      if user.is_active.getD true = false then .error inactiveErr
      else
        .ok ⟨email, user.name.getD email, user.role.getD ("employee".data),
          issue_token email (user.role.getD ("employee".data))⟩
    else .error invalidCredentialsErr

/-- The role gate, from the `/admin/users` handler
(`if current["role"] != "admin": raise HTTPException(403, "Admin only")`),
generalised over the required role as §4.3 of the spec describes
`requireRole`; the repository instantiates it only at `"admin"`. -/
def require_role (ctx : IdentityContext) (role : PyStr) : Except HTTPError Unit :=
  if ctx.role = role then .ok () else .error forbiddenErr

/-- The `user` collection after `seed_users()` on an empty database: the
two `User` pydantic models inserted at startup (all fields present). -/
def seededStore : List UserDoc :=
  [⟨"admin".data, some ("admin".data), some ("Administrator".data),
      some ("admin".data), some true⟩,
   ⟨"karyawan".data, some ("karyawan".data), some ("Karyawan".data),
      some ("employee".data), some true⟩]

/-- Pydantic's `EmailStr` (used by `LoginRequest.email` and
`LoginResponse.email`): a necessary condition for a string to pass
`email-validator` is that it contain an `'@'` separating the local part
from the domain.  Only this necessary condition is modelled. -/
def emailStrNecessary (s : PyStr) : Bool :=
  s.contains '@'

/-! ## Lemmas: characters and hexadecimal -/

/-- A `Char` is a Unicode scalar value: below the surrogate block or
between it and `0x110000`. -/
theorem char_toNat_valid (c : Char) :
    c.toNat < 0xD800 ∨ (0xDFFF < c.toNat ∧ c.toNat < 0x110000) := c.valid

theorem char_toNat_lt (c : Char) : c.toNat < 0x110000 := by
  rcases char_toNat_valid c with h | ⟨_, h⟩ <;> omega

theorem hexDigitVal_hexDigitChar {x : Nat} (h : x < 16) :
    hexDigitVal (hexDigitChar x) = some x := by
  interval_cases x <;> rfl

theorem isAsciiSpace_hexDigitChar {x : Nat} (h : x < 16) :
    isAsciiSpace (hexDigitChar x) = false := by
  interval_cases x <;> rfl

theorem isPyStrSpace_hexDigitChar {x : Nat} (h : x < 16) :
    isPyStrSpace (hexDigitChar x) = false := by
  interval_cases x <;> rfl

/-- `bytes.fromhex` inverts `bytes.hex`. -/
theorem bytesFromHex_bytesHex {bs : List Nat} (h : ∀ b ∈ bs, b < 256) :
    bytesFromHex (bytesHex bs) = some bs := by
  induction bs with
  | nil => rfl
  | cons b bs ih =>
    have hb : b < 256 := h b (List.mem_cons_self _ _)
    have h1 : b / 16 < 16 := by omega
    have h2 : b % 16 < 16 := by omega
    have hrec := ih (fun x hx => h x (List.mem_cons_of_mem _ hx))
    have hval : 16 * (b / 16) + b % 16 = b := by omega
    simp [bytesHex, bytesFromHex, isAsciiSpace_hexDigitChar h1,
      hexDigitVal_hexDigitChar h1, hexDigitVal_hexDigitChar h2, hrec, hval]

/-! ## Lemmas: UTF-8 -/

theorem utf8Decode_nil : utf8Decode [] = some [] := by rw [utf8Decode]

theorem utf8Decode_cons_some {b : Nat} {rest : List Nat} {c : Char} {rest' : List Nat}
    (h : utf8DecodeChar? (b :: rest) = some (c, rest')) :
    utf8Decode (b :: rest) = (utf8Decode rest').map (fun s => c :: s) := by
  rw [utf8Decode]
  split
  · simp_all
  · rename_i c' r' heq
    rw [h] at heq
    cases heq
    rfl

theorem utf8EncodeChar_eq1 {c : Char} (h : c.toNat < 0x80) :
    utf8EncodeChar c = [c.toNat] := by
  simp only [utf8EncodeChar]
  rw [if_pos h]

theorem utf8EncodeChar_eq2 {c : Char} (h1 : 0x80 ≤ c.toNat) (h2 : c.toNat < 0x800) :
    utf8EncodeChar c = [0xC0 + c.toNat / 64, 0x80 + c.toNat % 64] := by
  simp only [utf8EncodeChar]
  rw [if_neg (by omega), if_pos h2]

theorem utf8EncodeChar_eq3 {c : Char} (h1 : 0x800 ≤ c.toNat) (h2 : c.toNat < 0x10000) :
    utf8EncodeChar c = [0xE0 + c.toNat / 4096, 0x80 + c.toNat / 64 % 64, 0x80 + c.toNat % 64] := by
  simp only [utf8EncodeChar]
  rw [if_neg (by omega), if_neg (by omega), if_pos h2]

theorem utf8EncodeChar_eq4 {c : Char} (h1 : 0x10000 ≤ c.toNat) :
    utf8EncodeChar c = [0xF0 + c.toNat / 262144, 0x80 + c.toNat / 4096 % 64,
      0x80 + c.toNat / 64 % 64, 0x80 + c.toNat % 64] := by
  simp only [utf8EncodeChar]
  rw [if_neg (by omega), if_neg (by omega), if_neg (by omega)]

theorem utf8DecodeChar?_one {b1 : Nat} (rest : List Nat) (h : b1 < 0x80) :
    utf8DecodeChar? (b1 :: rest) = some (Char.ofNat b1, rest) := by
  simp only [utf8DecodeChar?]
  rw [if_pos h]

theorem utf8DecodeChar?_two {b1 b2 : Nat} (rest : List Nat)
    (h1 : 0xC2 ≤ b1) (h2 : b1 < 0xE0) (h3 : 0x80 ≤ b2) (h4 : b2 < 0xC0) :
    utf8DecodeChar? (b1 :: b2 :: rest) =
      some (Char.ofNat ((b1 - 0xC0) * 64 + (b2 - 0x80)), rest) := by
  simp only [utf8DecodeChar?]
  rw [if_neg (by omega), if_neg (by omega), if_pos (by omega)]
  exact if_pos ⟨h3, h4⟩

theorem utf8DecodeChar?_three {b1 b2 b3 : Nat} (rest : List Nat)
    (h1 : 0xE0 ≤ b1) (h2 : b1 < 0xF0) (h3 : 0x80 ≤ b2) (h4 : b2 < 0xC0)
    (h5 : 0x80 ≤ b3) (h6 : b3 < 0xC0)
    (h7 : 0x800 ≤ (b1 - 0xE0) * 4096 + (b2 - 0x80) * 64 + (b3 - 0x80))
    (h8 : ¬(0xD800 ≤ (b1 - 0xE0) * 4096 + (b2 - 0x80) * 64 + (b3 - 0x80) ∧
        (b1 - 0xE0) * 4096 + (b2 - 0x80) * 64 + (b3 - 0x80) < 0xE000)) :
    utf8DecodeChar? (b1 :: b2 :: b3 :: rest) =
      some (Char.ofNat ((b1 - 0xE0) * 4096 + (b2 - 0x80) * 64 + (b3 - 0x80)), rest) := by
  simp only [utf8DecodeChar?]
  rw [if_neg (by omega), if_neg (by omega), if_neg (by omega), if_pos (by omega)]
  exact if_pos ⟨⟨h3, h4⟩, ⟨h5, h6⟩, h7, h8⟩

theorem utf8DecodeChar?_four {b1 b2 b3 b4 : Nat} (rest : List Nat)
    (h1 : 0xF0 ≤ b1) (h2 : b1 < 0xF5) (h3 : 0x80 ≤ b2) (h4 : b2 < 0xC0)
    (h5 : 0x80 ≤ b3) (h6 : b3 < 0xC0) (h7 : 0x80 ≤ b4) (h8 : b4 < 0xC0)
    (h9 : 0x10000 ≤ (b1 - 0xF0) * 262144 + (b2 - 0x80) * 4096 + (b3 - 0x80) * 64 + (b4 - 0x80))
    (h10 : (b1 - 0xF0) * 262144 + (b2 - 0x80) * 4096 + (b3 - 0x80) * 64 + (b4 - 0x80)
        < 0x110000) :
    utf8DecodeChar? (b1 :: b2 :: b3 :: b4 :: rest) =
      some (Char.ofNat
        ((b1 - 0xF0) * 262144 + (b2 - 0x80) * 4096 + (b3 - 0x80) * 64 + (b4 - 0x80)), rest) := by
  simp only [utf8DecodeChar?]
  rw [if_neg (by omega), if_neg (by omega), if_neg (by omega), if_neg (by omega),
    if_pos (by omega)]
  exact if_pos ⟨⟨h3, h4⟩, ⟨h5, h6⟩, ⟨h7, h8⟩, h9, h10⟩

/-- Decoding one character from an encoded character followed by anything
recovers that character. -/
theorem utf8DecodeChar?_encodeChar (c : Char) (bs : List Nat) :
    utf8DecodeChar? (utf8EncodeChar c ++ bs) = some (c, bs) := by
  have hval := char_toNat_valid c
  have hlt := char_toNat_lt c
  rcases Nat.lt_or_ge c.toNat 0x80 with h1 | h1
  · rw [utf8EncodeChar_eq1 h1, List.cons_append, List.nil_append,
      utf8DecodeChar?_one bs h1, Char.ofNat_toNat]
  · rcases Nat.lt_or_ge c.toNat 0x800 with h2 | h2
    · rw [utf8EncodeChar_eq2 h1 h2]
      simp only [List.cons_append, List.nil_append]
      rw [utf8DecodeChar?_two bs (by omega) (by omega) (by omega) (by omega)]
      rw [show (0xC0 + c.toNat / 64 - 0xC0) * 64 + (0x80 + c.toNat % 64 - 0x80) = c.toNat by
        omega, Char.ofNat_toNat]
    · rcases Nat.lt_or_ge c.toNat 0x10000 with h3 | h3
      · rw [utf8EncodeChar_eq3 h2 h3]
        simp only [List.cons_append, List.nil_append]
        rw [utf8DecodeChar?_three bs (by omega) (by omega) (by omega) (by omega) (by omega)
          (by omega) (by omega) (by omega)]
        rw [show (0xE0 + c.toNat / 4096 - 0xE0) * 4096 + (0x80 + c.toNat / 64 % 64 - 0x80) * 64 +
          (0x80 + c.toNat % 64 - 0x80) = c.toNat by omega, Char.ofNat_toNat]
      · rw [utf8EncodeChar_eq4 h3]
        simp only [List.cons_append, List.nil_append]
        rw [utf8DecodeChar?_four bs (by omega) (by omega) (by omega) (by omega) (by omega)
          (by omega) (by omega) (by omega) (by omega) (by omega)]
        rw [show (0xF0 + c.toNat / 262144 - 0xF0) * 262144 +
          (0x80 + c.toNat / 4096 % 64 - 0x80) * 4096 + (0x80 + c.toNat / 64 % 64 - 0x80) * 64 +
          (0x80 + c.toNat % 64 - 0x80) = c.toNat by omega, Char.ofNat_toNat]

theorem utf8EncodeChar_ne_nil (c : Char) : utf8EncodeChar c ≠ [] := by
  have hval := char_toNat_valid c
  rcases Nat.lt_or_ge c.toNat 0x80 with h1 | h1
  · rw [utf8EncodeChar_eq1 h1]; simp
  · rcases Nat.lt_or_ge c.toNat 0x800 with h2 | h2
    · rw [utf8EncodeChar_eq2 h1 h2]; simp
    · rcases Nat.lt_or_ge c.toNat 0x10000 with h3 | h3
      · rw [utf8EncodeChar_eq3 h2 h3]; simp
      · rw [utf8EncodeChar_eq4 h3]; simp

/-- Every value produced by the UTF-8 encoder is a byte. -/
theorem utf8EncodeChar_lt_256 (c : Char) : ∀ b ∈ utf8EncodeChar c, b < 256 := by
  have hval := char_toNat_valid c
  have hlt := char_toNat_lt c
  intro b hb
  rcases Nat.lt_or_ge c.toNat 0x80 with h1 | h1
  · rw [utf8EncodeChar_eq1 h1] at hb
    simp only [List.mem_singleton] at hb
    omega
  · rcases Nat.lt_or_ge c.toNat 0x800 with h2 | h2
    · rw [utf8EncodeChar_eq2 h1 h2] at hb
      simp only [List.mem_cons, List.not_mem_nil, or_false] at hb
      rcases hb with h | h <;> omega
    · rcases Nat.lt_or_ge c.toNat 0x10000 with h3 | h3
      · rw [utf8EncodeChar_eq3 h2 h3] at hb
        simp only [List.mem_cons, List.not_mem_nil, or_false] at hb
        rcases hb with h | h | h <;> omega
      · rw [utf8EncodeChar_eq4 h3] at hb
        simp only [List.mem_cons, List.not_mem_nil, or_false] at hb
        rcases hb with h | h | h | h <;> omega

/-- Decoding an encoded character at the head of a byte stream peels off
exactly that character. -/
theorem utf8Decode_encodeChar (c : Char) (bs : List Nat) :
    utf8Decode (utf8EncodeChar c ++ bs) = (utf8Decode bs).map (fun s => c :: s) := by
  have h := utf8DecodeChar?_encodeChar c bs
  obtain ⟨b, rest, he⟩ : ∃ b rest, utf8EncodeChar c ++ bs = b :: rest := by
    cases hh : utf8EncodeChar c with
    | nil => exact absurd hh (utf8EncodeChar_ne_nil c)
    | cons x xs => exact ⟨x, xs ++ bs, by simp [hh]⟩
  rw [he] at h ⊢
  exact utf8Decode_cons_some h

/-- The strict UTF-8 decoder inverts the encoder. -/
theorem utf8Decode_utf8Encode (s : List Char) : utf8Decode (utf8Encode s) = some s := by
  induction s with
  | nil => exact utf8Decode_nil
  | cons c s ih => rw [utf8Encode, utf8Decode_encodeChar, ih]; rfl

theorem utf8Encode_lt_256 (s : List Char) : ∀ b ∈ utf8Encode s, b < 256 := by
  induction s with
  | nil => intro b hb; cases hb
  | cons c s ih =>
    intro b hb
    rw [utf8Encode] at hb
    rcases List.mem_append.1 hb with h | h
    · exact utf8EncodeChar_lt_256 c b h
    · exact ih b h

theorem utf8Encode_ne_nil {c : Char} (s : List Char) : utf8Encode (c :: s) ≠ [] := by
  rw [utf8Encode]
  intro h
  exact utf8EncodeChar_ne_nil c (List.append_eq_nil.1 h).1

/-! ## Lemmas: splitting -/

/-- Splitting at the first `':'` of `role ++ ":" ++ email` recovers the
pair when `role` itself has no `':'` (while `email` may have any). -/
theorem splitFirstColon_append {role : List Char} (email : List Char) (h : ':' ∉ role) :
    splitFirstColon (role ++ ':' :: email) = some (role, email) := by
  induction role with
  | nil => simp [splitFirstColon]
  | cons c cs ih =>
    have hc : ¬(c = ':') := fun hc => h (by simp [hc])
    have hcs : ':' ∉ cs := fun hm => h (List.mem_cons_of_mem _ hm)
    rw [List.cons_append, splitFirstColon, if_neg hc, ih hcs]
    rfl

/-- The token round-trip at the heart of the codec: `parse_token`
inverts `issue_token` whenever the role contains no `':'`. -/
theorem parse_token_issue_token {role : PyStr} (email : PyStr) (h : ':' ∉ role) :
    parse_token (issue_token email role) = .ok (role, email) := by
  simp only [parse_token, issue_token,
    bytesFromHex_bytesHex (utf8Encode_lt_256 (role ++ ':' :: email)),
    utf8Decode_utf8Encode, splitFirstColon_append email h]

/-! ## Lemmas: `str.split()` -/

theorem takeWhile_append_not {p : Char → Bool} {s0 : Char} (hp : p s0 = false)
    (a y : List Char) : (a ++ s0 :: y).takeWhile p = a.takeWhile p := by
  induction a with
  | nil => simp [List.takeWhile_cons, hp]
  | cons c cs ih =>
    by_cases hc : p c <;> simp [List.takeWhile_cons, hc, ih]

theorem dropWhile_append_not {p : Char → Bool} {s0 : Char} (hp : p s0 = false)
    (a y : List Char) : (a ++ s0 :: y).dropWhile p = a.dropWhile p ++ s0 :: y := by
  induction a with
  | nil => simp [List.dropWhile_cons, hp]
  | cons c cs ih =>
    by_cases hc : p c <;> simp [List.dropWhile_cons, hc, ih]

theorem takeWhile_all {p : Char → Bool} {l : List Char} (h : ∀ x ∈ l, p x = true) :
    l.takeWhile p = l := by
  induction l with
  | nil => rfl
  | cons c cs ih =>
    rw [List.takeWhile_cons, if_pos (h c (List.mem_cons_self _ _)),
      ih (fun x hx => h x (List.mem_cons_of_mem _ hx))]

theorem dropWhile_all {p : Char → Bool} {l : List Char} (h : ∀ x ∈ l, p x = true) :
    l.dropWhile p = [] := by
  induction l with
  | nil => rfl
  | cons c cs ih =>
    rw [List.dropWhile_cons, if_pos (h c (List.mem_cons_self _ _)),
      ih (fun x hx => h x (List.mem_cons_of_mem _ hx))]

theorem pySplit_nil : pySplit [] = [] := by rw [pySplit]

theorem pySplit_cons (c : Char) (rest : List Char) :
    pySplit (c :: rest) =
      if isPyStrSpace c then pySplit rest
      else (c :: rest.takeWhile (fun d => !isPyStrSpace d)) ::
        pySplit (rest.dropWhile (fun d => !isPyStrSpace d)) := by
  conv_lhs => rw [pySplit]

/-- A non-empty all-non-whitespace string splits into the single word
that is itself. -/
theorem pySplit_no_space {t : List Char} (hne : t ≠ [])
    (h : ∀ c ∈ t, isPyStrSpace c = false) : pySplit t = [t] := by
  cases t with
  | nil => exact absurd rfl hne
  | cons c rest =>
    have hc : ¬(isPyStrSpace c = true) := by
      rw [h c (List.mem_cons_self _ _)]; simp
    rw [pySplit, if_neg hc,
      takeWhile_all (l := rest) (fun x hx => by
        rw [h x (List.mem_cons_of_mem _ hx)]; rfl),
      dropWhile_all (l := rest) (fun x hx => by
        rw [h x (List.mem_cons_of_mem _ hx)]; rfl)]
    rw [pySplit_nil]

/-- `str.split()` distributes over a whitespace separator. -/
theorem pySplit_append_sep {sep : Char} (hsep : isPyStrSpace sep = true)
    (y : List Char) (x : List Char) :
    pySplit (x ++ sep :: y) = pySplit x ++ pySplit y := by
  suffices h : ∀ (n : Nat) (x : List Char), x.length ≤ n →
      pySplit (x ++ sep :: y) = pySplit x ++ pySplit y from
    h x.length x (Nat.le_refl _)
  intro n
  induction n with
  | zero =>
    intro x hx
    rw [List.length_eq_zero.1 (Nat.le_zero.1 hx), List.nil_append, pySplit_cons, if_pos hsep,
      pySplit_nil, List.nil_append]
  | succ n ih =>
    intro x hx
    cases x with
    | nil =>
      rw [List.nil_append, pySplit_cons, if_pos hsep, pySplit_nil, List.nil_append]
    | cons c rest =>
      simp only [List.length_cons] at hx
      by_cases hc : isPyStrSpace c = true
      · rw [List.cons_append, pySplit_cons, if_pos hc, pySplit_cons, if_pos hc]
        exact ih rest (by omega)
      · have hpsep : (fun d => !isPyStrSpace d) sep = false := by simp [hsep]
        rw [List.cons_append, pySplit_cons, if_neg hc, pySplit_cons, if_neg hc,
          takeWhile_append_not hpsep, dropWhile_append_not hpsep]
        have hlen : (rest.dropWhile (fun d => !isPyStrSpace d)).length ≤ n := by
          have := List.Sublist.length_le (List.dropWhile_sublist
            (l := rest) (fun d => !isPyStrSpace d))
          omega
        rw [ih _ hlen, List.cons_append]

/-- Whatever precedes the final whitespace separator, the last word of the
split is the trailing non-whitespace token. -/
theorem pySplit_getLast {w t : List Char} {sep : Char} (hsep : isPyStrSpace sep = true)
    (hne : t ≠ []) (ht : ∀ c ∈ t, isPyStrSpace c = false) :
    (pySplit (w ++ sep :: t)).getLast? = some t := by
  rw [pySplit_append_sep hsep t w, pySplit_no_space hne ht, List.getLast?_concat]

/-- A bare whitespace-free token is its own last header segment. -/
theorem pySplit_getLast_self {t : List Char} (hne : t ≠ [])
    (ht : ∀ c ∈ t, isPyStrSpace c = false) : (pySplit t).getLast? = some t := by
  rw [pySplit_no_space hne ht]
  rfl

/-- A string containing any non-whitespace character splits into at least
one word. -/
theorem pySplit_ne_nil {s : List Char} (h : ∃ c ∈ s, isPyStrSpace c = false) :
    pySplit s ≠ [] := by
  induction s with
  | nil => obtain ⟨c, hc, _⟩ := h; cases hc
  | cons c rest ih =>
    by_cases hc : isPyStrSpace c = true
    · rw [pySplit, if_pos hc]
      apply ih
      obtain ⟨d, hd, hds⟩ := h
      rcases List.mem_cons.1 hd with rfl | hd'
      · rw [hc] at hds; cases hds
      · exact ⟨d, hd', hds⟩
    · rw [pySplit, if_neg hc]
      simp

/-- A whitespace-only string splits into no words (`parts == []`). -/
theorem pySplit_all_space {s : List Char} (h : ∀ c ∈ s, isPyStrSpace c = true) :
    pySplit s = [] := by
  induction s with
  | nil => exact pySplit_nil
  | cons c rest ih =>
    rw [pySplit, if_pos (h c (List.mem_cons_self _ _))]
    exact ih (fun x hx => h x (List.mem_cons_of_mem _ hx))

/-! ## Lemmas: tokens as header segments -/

theorem bytesHex_no_space {bs : List Nat} (h : ∀ b ∈ bs, b < 256) :
    ∀ c ∈ bytesHex bs, isPyStrSpace c = false := by
  induction bs with
  | nil => intro c hc; cases hc
  | cons b bs ih =>
    intro c hc
    have hb : b < 256 := h b (List.mem_cons_self _ _)
    rw [bytesHex] at hc
    rcases List.mem_cons.1 hc with rfl | hc'
    · exact isPyStrSpace_hexDigitChar (by omega)
    · rcases List.mem_cons.1 hc' with rfl | hc''
      · exact isPyStrSpace_hexDigitChar (by omega)
      · exact ih (fun x hx => h x (List.mem_cons_of_mem _ hx)) c hc''

theorem issue_token_no_space (email role : PyStr) :
    ∀ c ∈ issue_token email role, isPyStrSpace c = false :=
  bytesHex_no_space (utf8Encode_lt_256 _)

theorem issue_token_ne_nil (email role : PyStr) : issue_token email role ≠ [] := by
  obtain ⟨c, s, hcs⟩ : ∃ c s, role ++ ':' :: email = c :: s := by
    cases role with
    | nil => exact ⟨':', email, rfl⟩
    | cons r rs => exact ⟨r, rs ++ ':' :: email, rfl⟩
  rw [issue_token, hcs]
  obtain ⟨b, bs, hbs⟩ : ∃ b bs, utf8Encode (c :: s) = b :: bs := by
    cases hu : utf8Encode (c :: s) with
    | nil => exact absurd hu (utf8Encode_ne_nil s)
    | cons b bs => exact ⟨b, bs, rfl⟩
  rw [hbs, bytesHex]
  simp

/-- Unfolding `get_current_user` once the last header segment is known. -/
theorem get_current_user_some {a : PyStr} (store : List UserDoc) (ha : ¬(a = []))
    {t : PyStr} (hlast : (pySplit a).getLast? = some t) :
    get_current_user (some a) store =
      match parse_token t with
      | .error e => .error (.http e)
      | .ok (role, email) =>
        match find_one store email with
        | none => .error (.http notActiveErr)
        | some user =>
          if user.is_active = some true then .ok ⟨email, role, user.name.getD email⟩
          else .error (.http notActiveErr) := by
  simp only [get_current_user]
  rw [if_neg ha, hlast]

/-- A non-empty all-whitespace header reaches `parts[-1]` with `parts`
empty: the untyped `IndexError`. -/
theorem get_current_user_indexError {a : PyStr} (store : List UserDoc) (ha : ¬(a = []))
    (h : ∀ c ∈ a, isPyStrSpace c = true) :
    get_current_user (some a) store = .error .indexError := by
  simp only [get_current_user]
  rw [if_neg ha, pySplit_all_space h]
  rfl

/-- Every error `parse_token` produces is the 401 "Invalid token" one:
the bare `except` maps all three failure modes to it. -/
theorem parse_token_error {t : PyStr} {e : HTTPError}
    (h : parse_token t = .error e) : e = invalidTokenErr := by
  unfold parse_token at h
  cases hfx : bytesFromHex t with
  | none =>
    simp only [hfx] at h
    exact (Except.error.injEq _ _ ▸ h).symm
  | some bs =>
    simp only [hfx] at h
    cases hdec : utf8Decode bs with
    | none =>
      simp only [hdec] at h
      exact (Except.error.injEq _ _ ▸ h).symm
    | some decoded =>
      simp only [hdec] at h
      cases hsp : splitFirstColon decoded with
      | none =>
        simp only [hsp] at h
        exact (Except.error.injEq _ _ ▸ h).symm
      | some p =>
        simp only [hsp] at h
        cases h

/-! ## The claims -/

/-- C2: for every pair of strings `(role, identity)` where the role
contains no `':'`, decoding the token produced by encoding that pair
returns exactly `(role, identity)`; the identity may itself contain `':'`
characters, because decode splits only at the first delimiter and assigns
everything after it to the identity. -/
theorem C2_token_roundtrip (role email : PyStr) (h : ':' ∉ role) :
    parse_token (issue_token email role) = .ok (role, email) :=
  parse_token_issue_token email h

theorem C2_token_roundtrip_witness :
    ':' ∉ ("admin".data : PyStr) ∧
      parse_token (issue_token ("a:b".data) ("admin".data)) =
        .ok ("admin".data, "a:b".data) :=
  ⟨by decide, C2_token_roundtrip ("admin".data) ("a:b".data) (by decide)⟩

/-- C3: a login attempt fails with the same `InvalidCredentials` error
both when no record exists and when the stored password does not exactly
match; when the record exists, the password matches, and `is_active` is
false, it fails with the distinct `AccountInactive` error, surfaced with
a different status code (403 instead of 401). -/
theorem C3_login_errors (store : List UserDoc) (email password : PyStr) :
    (find_one store email = none →
      login store email password = .error invalidCredentialsErr) ∧
    (∀ u, find_one store email = some u → u.password ≠ some password →
      login store email password = .error invalidCredentialsErr) ∧
    (∀ u, find_one store email = some u → u.password = some password →
      u.is_active = some false → login store email password = .error inactiveErr) ∧
    inactiveErr ≠ invalidCredentialsErr ∧
    inactiveErr.status ≠ invalidCredentialsErr.status := by
  refine ⟨?_, ?_, ?_, by decide, by decide⟩
  · intro h
    simp [login, h]
  · intro u hu hp
    simp [login, hu, hp]
  · intro u hu hp hia
    simp [login, hu, hp, hia]

theorem C3_login_errors_witness :
    (find_one [] ("u".data) = none ∧
      login [] ("u".data) ("p".data) = .error invalidCredentialsErr) ∧
    (login [⟨"u".data, some ("q".data), none, none, none⟩] ("u".data) ("p".data) =
      .error invalidCredentialsErr) ∧
    (login [⟨"u".data, some ("p".data), none, none, some false⟩] ("u".data) ("p".data) =
      .error inactiveErr) :=
  ⟨⟨rfl, (C3_login_errors [] ("u".data) ("p".data)).1 rfl⟩,
   (C3_login_errors [⟨"u".data, some ("q".data), none, none, none⟩] ("u".data)
      ("p".data)).2.1 _ rfl (by decide),
   (C3_login_errors [⟨"u".data, some ("p".data), none, none, some false⟩] ("u".data)
      ("p".data)).2.2.1 _ rfl rfl rfl⟩

/-- C10: when the stored record has no `role` field, a successful login
falls back to `"employee"`: the minted token encodes role `"employee"`
and the response reports role `"employee"`. -/
theorem C10_default_role (store : List UserDoc) (email password : PyStr) (u : UserDoc)
    (h1 : find_one store email = some u) (h2 : u.role = none)
    (h3 : u.password = some password) (h4 : u.is_active ≠ some false) :
    login store email password =
      .ok ⟨email, u.name.getD email, "employee".data,
        issue_token email ("employee".data)⟩ := by
  have hga : u.is_active.getD true = true := by
    cases hia : u.is_active with
    | none => rfl
    | some b =>
      cases b with
      | false => exact absurd hia h4
      | true => rfl
  simp [login, h1, h3, h2, hga]

theorem C10_default_role_witness :
    login [⟨"u".data, some ("p".data), none, none, none⟩] ("u".data) ("p".data) =
      .ok ⟨"u".data, "u".data, "employee".data, issue_token ("u".data) ("employee".data)⟩ :=
  C10_default_role [⟨"u".data, some ("p".data), none, none, none⟩] ("u".data) ("p".data)
    ⟨"u".data, some ("p".data), none, none, none⟩ rfl rfl rfl (by decide)

/-- C5: an identity context is only produced when the currently stored
record for the decoded identity has `is_active` exactly true; a token
issued for an account whose `is_active` has since become false still
decodes, yet fails `authenticate` with the 401 Unauthorized error. -/
theorem C5_active_invariant :
    (∀ (a : Option PyStr) (store : List UserDoc) (ctx : IdentityContext),
      get_current_user a store = .ok ctx →
      ∃ u, find_one store ctx.email = some u ∧ u.is_active = some true) ∧
    (∀ (email role : PyStr) (store : List UserDoc) (u : UserDoc),
      ':' ∉ role → find_one store email = some u → u.is_active = some false →
      parse_token (issue_token email role) = .ok (role, email) ∧
      get_current_user (some ("Bearer ".data ++ issue_token email role)) store =
        .error (.http notActiveErr)) := by
  constructor
  · intro a store ctx h
    match a with
    | none => simp [get_current_user] at h
    | some s =>
      simp only [get_current_user] at h
      by_cases hs : s = []
      · rw [if_pos hs] at h; cases h
      · rw [if_neg hs] at h
        cases hlast : (pySplit s).getLast? with
        | none => simp only [hlast] at h; exact Except.noConfusion h
        | some token =>
          simp only [hlast] at h
          cases hpt : parse_token token with
          | error e => simp only [hpt] at h; exact Except.noConfusion h
          | ok p =>
            obtain ⟨role, email⟩ := p
            simp only [hpt] at h
            cases hfo : find_one store email with
            | none => simp only [hfo] at h; exact Except.noConfusion h
            | some user =>
              simp only [hfo] at h
              by_cases hia : user.is_active = some true
              · rw [if_pos hia] at h
                cases h
                exact ⟨user, hfo, hia⟩
              · rw [if_neg hia] at h; cases h
  · intro email role store u hrole hfo hia
    refine ⟨parse_token_issue_token email hrole, ?_⟩
    rw [show ("Bearer ".data ++ issue_token email role : PyStr) =
      "Bearer".data ++ ' ' :: issue_token email role from by simp]
    rw [get_current_user_some store (by simp)
      (pySplit_getLast (by decide) (issue_token_ne_nil email role)
        (issue_token_no_space email role))]
    rw [parse_token_issue_token email hrole]
    simp [hfo, hia]

theorem C5_active_invariant_witness :
    parse_token (issue_token ("u".data) ("admin".data)) = .ok ("admin".data, "u".data) ∧
    get_current_user
        (some ("Bearer ".data ++ issue_token ("u".data) ("admin".data)))
        [⟨"u".data, some ("p".data), none, some ("admin".data), some false⟩] =
      .error (.http notActiveErr) :=
  C5_active_invariant.2 ("u".data) ("admin".data)
    [⟨"u".data, some ("p".data), none, some ("admin".data), some false⟩]
    ⟨"u".data, some ("p".data), none, some ("admin".data), some false⟩
    (by decide) rfl rfl

/-- C9: `authenticate` fails with the 401 Missing-Authorization error
when no header value is supplied, and, for a header made of a prefix, a
whitespace separator and a trailing whitespace-free token, behaves
exactly as if only that last segment had been supplied — the scheme word
is never validated. -/
theorem C9_header_extraction :
    (∀ store : List UserDoc,
      get_current_user none store = .error (.http missingAuthErr)) ∧
    (∀ (w t : PyStr) (sep : Char) (store : List UserDoc),
      isPyStrSpace sep = true → t ≠ [] → (∀ c ∈ t, isPyStrSpace c = false) →
      get_current_user (some (w ++ sep :: t)) store = get_current_user (some t) store) := by
  constructor
  · intro store; rfl
  · intro w t sep store hsep ht hc
    rw [get_current_user_some store (by simp) (pySplit_getLast hsep ht hc),
      get_current_user_some store ht
        (by rw [pySplit_no_space ht hc]; rfl)]
    rfl

theorem C9_header_extraction_witness :
    isPyStrSpace ' ' = true ∧ ("ff".data : PyStr) ≠ [] ∧
      get_current_user (some ("XYZ".data ++ ' ' :: "ff".data)) [] =
        get_current_user (some ("ff".data)) [] :=
  ⟨by decide, by decide,
    C9_header_extraction.2 ("XYZ".data) ("ff".data) ' ' [] (by decide) (by decide) (by decide)⟩

/-- C8: the role in a successful identity context is the role decoded
from the token (the name alone comes from the current record), and
`authenticate` never reads the stored `role` field at all: two stores
whose records agree on `name` and `is_active` — but may disagree on
`role` — produce identical results. -/
theorem C8_role_from_token :
    (∀ (header : PyStr) (store : List UserDoc) (ctx : IdentityContext),
      get_current_user (some header) store = .ok ctx →
      ∃ token u, (pySplit header).getLast? = some token ∧
        parse_token token = .ok (ctx.role, ctx.email) ∧
        find_one store ctx.email = some u ∧ ctx.name = u.name.getD ctx.email) ∧
    (∀ (a : Option PyStr) (store store' : List UserDoc),
      (∀ e, (find_one store e).map (fun u => (u.name, u.is_active)) =
            (find_one store' e).map (fun u => (u.name, u.is_active))) →
      get_current_user a store = get_current_user a store') := by
  constructor
  · intro header store ctx h
    simp only [get_current_user] at h
    by_cases hs : header = []
    · rw [if_pos hs] at h; cases h
    · rw [if_neg hs] at h
      cases hlast : (pySplit header).getLast? with
      | none => simp only [hlast] at h; exact Except.noConfusion h
      | some token =>
        simp only [hlast] at h
        cases hpt : parse_token token with
        | error e => simp only [hpt] at h; exact Except.noConfusion h
        | ok p =>
          obtain ⟨role, email⟩ := p
          simp only [hpt] at h
          cases hfo : find_one store email with
          | none => simp only [hfo] at h; exact Except.noConfusion h
          | some user =>
            simp only [hfo] at h
            by_cases hia : user.is_active = some true
            · rw [if_pos hia] at h
              cases h
              exact ⟨token, user, rfl, hpt, hfo, rfl⟩
            · rw [if_neg hia] at h; cases h
  · intro a store store' hagree
    match a with
    | none => rfl
    | some s =>
      by_cases hs : s = []
      · subst hs; rfl
      · cases hlast : (pySplit s).getLast? with
        | none => simp only [get_current_user, if_neg hs, hlast]
        | some token =>
          rw [get_current_user_some store hs hlast,
            get_current_user_some store' hs hlast]
          cases hpt : parse_token token with
          | error e => simp only [hpt]
          | ok p =>
            obtain ⟨role, email⟩ := p
            simp only [hpt]
            have h := hagree email
            cases hfo : find_one store email with
            | none =>
              cases hfo' : find_one store' email with
              | none => simp only [hfo, hfo']
              | some u' => rw [hfo, hfo'] at h; cases h
            | some u =>
              cases hfo' : find_one store' email with
              | none => rw [hfo, hfo'] at h; cases h
              | some u' =>
                rw [hfo, hfo'] at h
                have hna : u.name = u'.name ∧ u.is_active = u'.is_active := by
                  simpa using h
                simp only [hfo, hfo', hna.1, hna.2]

theorem C8_role_from_token_witness :
    get_current_user (some (issue_token ("u".data) ("admin".data)))
        [⟨"u".data, some ("p".data), some ("N".data), some ("admin".data), some true⟩] =
      get_current_user (some (issue_token ("u".data) ("admin".data)))
        [⟨"u".data, some ("p".data), some ("N".data), some ("employee".data), some true⟩] :=
  C8_role_from_token.2 (some (issue_token ("u".data) ("admin".data)))
    [⟨"u".data, some ("p".data), some ("N".data), some ("admin".data), some true⟩]
    [⟨"u".data, some ("p".data), some ("N".data), some ("employee".data), some true⟩]
    (fun e => by
      by_cases he : ("u".data : PyStr) = e
      · subst he; rfl
      · have hd : (decide (("u".data : PyStr) = e)) = false := by
          simp [he]
        simp [find_one, List.find?, hd])

/-- C4 (counterexample): `"61 3a"` contains a space, which is not a hex
digit, yet `parse_token` succeeds on it — `bytes.fromhex` skips ASCII
whitespace between digit pairs, so not every string outside the
hexadecimal alphabet is rejected. -/
theorem C4_invalid_token_counterexample :
    hexDigitVal ' ' = none ∧ ' ' ∈ ("61 3a".data : PyStr) ∧
      parse_token ("61 3a".data) = .ok ("a".data, []) := by
  refine ⟨rfl, by decide, ?_⟩
  have h1 : bytesFromHex ("61 3a".data) = some [97, 58] := rfl
  have h2 : utf8Decode [97, 58] = some ['a', ':'] := by
    rw [utf8Decode_cons_some (show utf8DecodeChar? [97, 58] = some ('a', [58]) by decide),
      utf8Decode_cons_some (show utf8DecodeChar? [58] = some (':', []) by decide),
      utf8Decode_nil]
    rfl
  simp only [parse_token, h1, h2]
  rfl

/-- C4 (amended): `parse_token` fails — always with the single 401
"Invalid token" error — exactly on the failures of its three stages:
when `bytes.fromhex` rejects the string (not hex-digit pairs, up to
skipped ASCII whitespace), when the bytes are not valid UTF-8, or when
the decoded string contains no `':'`. -/
theorem C4_invalid_token (t : PyStr) :
    (∀ e, parse_token t = .error e → e = invalidTokenErr) ∧
    (bytesFromHex t = none → parse_token t = .error invalidTokenErr) ∧
    (∀ bs, bytesFromHex t = some bs → utf8Decode bs = none →
      parse_token t = .error invalidTokenErr) ∧
    (∀ bs s, bytesFromHex t = some bs → utf8Decode bs = some s →
      splitFirstColon s = none → parse_token t = .error invalidTokenErr) := by
  refine ⟨fun e h => parse_token_error h, ?_, ?_, ?_⟩
  · intro h
    simp [parse_token, h]
  · intro bs h1 h2
    simp [parse_token, h1, h2]
  · intro bs s h1 h2 h3
    simp [parse_token, h1, h2, h3]

theorem C4_invalid_token_witness :
    (bytesFromHex ("zz".data) = none ∧
      parse_token ("zz".data) = .error invalidTokenErr) ∧
    (bytesFromHex ("ff".data) = some [255] ∧ utf8Decode [255] = none ∧
      parse_token ("ff".data) = .error invalidTokenErr) ∧
    (parse_token ("61".data) = .error invalidTokenErr) :=
  ⟨⟨rfl, (C4_invalid_token ("zz".data)).2.1 rfl⟩,
   ⟨rfl, by rw [utf8Decode]; rfl,
    (C4_invalid_token ("ff".data)).2.2.1 [255] rfl (by rw [utf8Decode]; rfl)⟩,
   (C4_invalid_token ("61".data)).2.2.2 [97] ['a'] rfl
     (by rw [utf8Decode_cons_some (show utf8DecodeChar? [97] = some ('a', []) by decide),
           utf8Decode_nil]
         rfl)
     rfl⟩

/-- C6 (counterexample): a header consisting of a single space is
supplied and non-empty, so it passes the falsiness check, but
`authorization.split()` is then empty and `parts[-1]` raises an untyped
`IndexError` — not one of the typed error kinds. -/
theorem C6_untyped_failure_counterexample :
    get_current_user (some [' ']) [] = .error .indexError ∧
      ∀ e : HTTPError, (PyException.indexError = PyException.http e) → False :=
  ⟨get_current_user_indexError [] (by decide) (by decide), fun _ h => by cases h⟩

/-- C6 (amended): for every credential store and every header value that
is absent, empty, or contains at least one non-whitespace character,
`authenticate` terminates with an identity context or one of the typed
errors MissingCredentials, InvalidToken or Unauthorized; the one
remaining case — a non-empty, all-whitespace header — instead raises an
untyped `IndexError` from `parts[-1]`. -/
theorem C6_typed_termination (a : Option PyStr) (store : List UserDoc)
    (h : ∀ s, a = some s → s = [] ∨ ∃ c ∈ s, isPyStrSpace c = false) :
    (∃ ctx, get_current_user a store = .ok ctx) ∨
    get_current_user a store = .error (.http missingAuthErr) ∨
    get_current_user a store = .error (.http invalidTokenErr) ∨
    get_current_user a store = .error (.http notActiveErr) := by
  cases a with
  | none => right; left; rfl
  | some s =>
    rcases h s rfl with hs | hs
    · subst hs; right; left; rfl
    · by_cases hnil : s = []
      · subst hnil; right; left; rfl
      · cases hlast : (pySplit s).getLast? with
        | none =>
          exact absurd (List.getLast?_eq_none_iff.1 hlast) (pySplit_ne_nil hs)
        | some t =>
          rw [get_current_user_some store hnil hlast]
          cases hpt : parse_token t with
          | error e =>
            right; right; left
            rw [parse_token_error hpt]
          | ok p =>
            obtain ⟨role, email⟩ := p
            simp only [hpt]
            cases hfo : find_one store email with
            | none => right; right; right; simp [hfo]
            | some u =>
              by_cases hia : u.is_active = some true
              · exact Or.inl ⟨⟨email, role, u.name.getD email⟩, by simp [hfo, hia]⟩
              · right; right; right; simp [hfo, hia]

theorem C6_typed_termination_witness :
    (∃ ctx, get_current_user (some (issue_token ("admin".data) ("admin".data)))
        seededStore = .ok ctx) ∨
    get_current_user (some (issue_token ("admin".data) ("admin".data))) seededStore =
      .error (.http missingAuthErr) ∨
    get_current_user (some (issue_token ("admin".data) ("admin".data))) seededStore =
      .error (.http invalidTokenErr) ∨
    get_current_user (some (issue_token ("admin".data) ("admin".data))) seededStore =
      .error (.http notActiveErr) :=
  C6_typed_termination (some (issue_token ("admin".data) ("admin".data))) seededStore
    (fun s hs => by
      cases hs
      right
      exact ⟨'6', by decide, by decide⟩)

/-- C7 (counterexample): for a record without an `is_active` field the
two operations disagree — `login` succeeds (`user.get("is_active", True)`
defaults to true) but `authenticate` rejects the freshly minted token
with the 401 Unauthorized error (`user.get("is_active") is not True`
holds when the field is absent). -/
theorem C7_absent_is_active_counterexample :
    login [⟨"u".data, some ("p".data), none, none, none⟩] ("u".data) ("p".data) =
      .ok ⟨"u".data, "u".data, "employee".data, issue_token ("u".data) ("employee".data)⟩ ∧
    get_current_user (some (issue_token ("u".data) ("employee".data)))
        [⟨"u".data, some ("p".data), none, none, none⟩] =
      .error (.http notActiveErr) := by
  constructor
  · rfl
  · rw [get_current_user_some _ (issue_token_ne_nil ("u".data) ("employee".data))
      (pySplit_getLast_self (issue_token_ne_nil ("u".data) ("employee".data))
        (issue_token_no_space ("u".data) ("employee".data))),
      parse_token_issue_token ("u".data) (by decide)]
    rfl

/-- C7 (amended): an absent `is_active` field is treated as active by
`login` only; `authenticate` requires the stored field to be exactly
`True`, so it rejects tokens for such a record with the 401 Unauthorized
error even though login succeeds and decode succeeds. -/
theorem C7_absent_is_active (store : List UserDoc) (email password : PyStr) (u : UserDoc)
    (h1 : find_one store email = some u) (h2 : u.is_active = none)
    (h3 : u.password = some password) (h4 : ':' ∉ u.role.getD ("employee".data)) :
    (∃ r, login store email password = .ok r) ∧
    get_current_user (some (issue_token email (u.role.getD ("employee".data)))) store =
      .error (.http notActiveErr) := by
  constructor
  · exact ⟨⟨email, u.name.getD email, u.role.getD ("employee".data),
      issue_token email (u.role.getD ("employee".data))⟩,
      by simp [login, h1, h3, h2]⟩
  · rw [get_current_user_some _
      (issue_token_ne_nil email (u.role.getD ("employee".data)))
      (pySplit_getLast_self (issue_token_ne_nil email (u.role.getD ("employee".data)))
        (issue_token_no_space email (u.role.getD ("employee".data)))),
      parse_token_issue_token email h4]
    simp [h1, h2]

theorem C7_absent_is_active_witness :
    (∃ r, login [⟨"v".data, some ("q".data), none, none, none⟩] ("v".data) ("q".data) =
      .ok r) ∧
    get_current_user (some (issue_token ("v".data) ("employee".data)))
        [⟨"v".data, some ("q".data), none, none, none⟩] =
      .error (.http notActiveErr) :=
  C7_absent_is_active [⟨"v".data, some ("q".data), none, none, none⟩] ("v".data) ("q".data)
    ⟨"v".data, some ("q".data), none, none, none⟩ rfl rfl rfl (by decide)

/-- C1: at the level of the handler bodies the admin scenario behaves as
described — seeding, login, authenticate and the role gate all succeed —
but the request can never reach the `login` handler: `LoginRequest.email`
is declared `EmailStr`, whose validation requires an `'@'`, which
`"admin"` lacks, so FastAPI rejects the request body with a 422
validation error before the handler runs. -/
theorem C1_admin_scenario :
    emailStrNecessary ("admin".data) = false ∧
    login seededStore ("admin".data) ("admin".data) =
      .ok ⟨"admin".data, "Administrator".data, "admin".data,
        issue_token ("admin".data) ("admin".data)⟩ ∧
    get_current_user (some ("Bearer ".data ++ issue_token ("admin".data) ("admin".data)))
        seededStore =
      .ok ⟨"admin".data, "admin".data, "Administrator".data⟩ ∧
    require_role ⟨"admin".data, "admin".data, "Administrator".data⟩ ("admin".data) =
      .ok () ∧
    require_role ⟨"admin".data, "admin".data, "Administrator".data⟩ ("employee".data) =
      .error forbiddenErr := by
  refine ⟨rfl, rfl, ?_, rfl, rfl⟩
  rw [show ("Bearer ".data ++ issue_token ("admin".data) ("admin".data) : PyStr) =
      "Bearer".data ++ ' ' :: issue_token ("admin".data) ("admin".data) from by simp,
    get_current_user_some seededStore (by simp)
      (pySplit_getLast (by decide) (issue_token_ne_nil ("admin".data) ("admin".data))
        (issue_token_no_space ("admin".data) ("admin".data))),
    parse_token_issue_token ("admin".data) (by decide)]
  rfl
